import Mathlib

/-!
Verification of the MitoGraph-Z-adaptive segmentation core (src/MitoGraph.cxx).

The C++ code is shallowly embedded over the rationals: every `double` value is
modelled as a `ℚ`.  The two transcendental library routines the code calls,
`exp` and `sqrt` (and the constant `acos(-1.0)`), have no exact rational
counterpart, so every definition that needs them takes them as explicit
function/value parameters (`expFn`, `sqrtFn`, `piVal`); concrete theorems
instantiate those parameters with functions that are exact at the (perfect
square) arguments actually reached by the computation.  The eigen-solver
`vtkMath::Diagonalize3x3` is an external VTK collaborator, so it is likewise a
parameter (`diagFn`).  Grids are lists of voxel values (a z-plane is a
`List ℚ`, a volume a `List (List ℚ)` of planes where plane structure matters,
otherwise a flat `List ℚ`).
-/

namespace MitoGraph

/-! ### Sort (src/MitoGraph.cxx lines 220-228)

`Sort(&l1,&l2,&l3)` performs three conditional swaps keyed on absolute
values: swap(l1,l2) if |l1|>|l2|; swap(l2,l3) if |l2|>|l3|; swap(l1,l2)
again if |l1|>|l2|. -/

/-- One compare-and-swap of the first two slots, keyed on absolute value
(lines 225 and 227 of the source). -/
def sortSwap12 (t : ℚ × ℚ × ℚ) : ℚ × ℚ × ℚ :=
  if |t.1| > |t.2.1| then (t.2.1, t.1, t.2.2) else t

/-- One compare-and-swap of the last two slots, keyed on absolute value
(line 226 of the source). -/
def sortSwap23 (t : ℚ × ℚ × ℚ) : ℚ × ℚ × ℚ :=
  if |t.2.1| > |t.2.2| then (t.1, t.2.2, t.2.1) else t

/-- The routine Sort (lines 224-228): three conditional swaps. -/
def sortTriple (l1 l2 l3 : ℚ) : ℚ × ℚ × ℚ :=
  sortSwap12 (sortSwap23 (sortSwap12 (l1, l2, l3)))

/-- The invariant stated in spec section 3 for EigenTriple:
absolute values in ascending order. -/
def absOrdered (t : ℚ × ℚ × ℚ) : Prop :=
  |t.1| ≤ |t.2.1| ∧ |t.2.1| ≤ |t.2.2|

/-! ### Symmetric 3x3 Hessian and Frobenius norm (lines 230-236, 1656-1686) -/

/-- A 3x3 matrix of second partials, as built at lines 1658-1660 of the
source (entries are the six independent second derivatives; the matrix is
stored with all nine entries). -/
structure Mat3 where
  a00 : ℚ
  a01 : ℚ
  a02 : ℚ
  a10 : ℚ
  a11 : ℚ
  a12 : ℚ
  a20 : ℚ
  a21 : ℚ
  a22 : ℚ
deriving DecidableEq

/-- Sum of the squares of all nine entries (the loop body of
`FrobeniusNorm`, lines 231-234, before the final `sqrt`). -/
def frobSq (M : Mat3) : ℚ :=
  M.a00 * M.a00 + M.a01 * M.a01 + M.a02 * M.a02 +
  M.a10 * M.a10 + M.a11 * M.a11 + M.a12 * M.a12 +
  M.a20 * M.a20 + M.a21 * M.a21 + M.a22 * M.a22

/-- The routine FrobeniusNorm (lines 230-236): square root of the sum of squared
entries.  `sqrtFn` stands for the C `sqrt`. -/
def frobeniusNorm (sqrtFn : ℚ → ℚ) (M : Mat3) : ℚ :=
  sqrtFn (frobSq M)

/-- Trace of the Hessian, the guard of line 1662. -/
def traceM (M : Mat3) : ℚ := M.a00 + M.a11 + M.a22

/-- Per-voxel eigenvalue computation (lines 1657-1666): eigenvalues are all
zero unless the trace is negative, in which case the external eigen-solver
(`diagFn`, standing for `vtkMath::Diagonalize3x3`) is run and the result is
sorted by ascending absolute value. -/
def hessianEigenPass (diagFn : Mat3 → ℚ × ℚ × ℚ) (M : Mat3) : ℚ × ℚ × ℚ :=
  if traceM M < 0 then
    let e := diagFn M
    sortTriple e.1 e.2.1 e.2.2
  else (0, 0, 0)

/-- Maximum of a list of values, as produced by `GetRange` (upper end) on a
data array: the fold over the stored values. -/
def rangeMax : List ℚ → ℚ
  | [] => 0
  | x :: xs => xs.foldl max x

/-- Minimum of a list of values, as produced by `GetRange` (lower end). -/
def rangeMin : List ℚ → ℚ
  | [] => 0
  | x :: xs => xs.foldl min x

/-- The global noise floor of `GetHessianEigenvaluesDiscrete`
(lines 1672-1674): `ftresh = sqrt(frobenius_norm_range[1])`, the square
root of the largest stored Frobenius norm. -/
def codeNoiseFloor (sqrtFn : ℚ → ℚ) (Hs : List Mat3) : ℚ :=
  sqrtFn (rangeMax (Hs.map (frobeniusNorm sqrtFn)))

/-- The noise floor as the spec sentence words it: the square root of the
maximum SQUARED Frobenius norm over the whole volume. -/
def claimNoiseFloor (sqrtFn : ℚ → ℚ) (Hs : List Mat3) : ℚ :=
  sqrtFn (rangeMax (Hs.map frobSq))

/-- The routine GetHessianEigenvaluesDiscrete (lines 1656-1686), given the per-voxel
Hessians: first pass computes eigenvalue triples and Frobenius norms
(lines 1656-1671), then the noise floor (lines 1672-1674), then the second
pass zeroes every voxel whose stored norm is below the floor
(lines 1676-1682). -/
def hessianEigenvaluesDiscrete (sqrtFn : ℚ → ℚ) (diagFn : Mat3 → ℚ × ℚ × ℚ)
    (Hs : List Mat3) : List (ℚ × ℚ × ℚ) :=
  let pass1 := Hs.map (fun M => (hessianEigenPass diagFn M, frobeniusNorm sqrtFn M))
  let ftresh := sqrtFn (rangeMax (pass1.map Prod.snd))
  pass1.map (fun p => if p.2 < ftresh then ((0 : ℚ), (0 : ℚ), (0 : ℚ)) else p.1)

/-! ### Vesselness response (GetVesselness, lines 1814-1856) -/

/-- The per-voxel vesselness response of `GetVesselness` (lines 1818-1853),
transcribed with the intermediate quantities of the code.  `expFn` stands for the
C `exp`, `sqrtFn` for `sqrt`. -/
def getVesselnessResponse (expFn sqrtFn : ℚ → ℚ) (l1 l2 l3 : ℚ) : ℚ :=
  let c : ℚ := 500
  let beta : ℚ := 1/2
  let alpha : ℚ := 1/2
  let std : ℚ := 2 * c * c
  let rbd : ℚ := 2 * beta * beta
  let rad : ℚ := 2 * alpha * alpha
  if l2 < 0 ∧ l3 < 0 then
    let ra := |l2| / |l3|
    let ran := -ra * ra
    let rb := |l1| / sqrtFn (l2 * l3)
    let rbn := -rb * rb
    let st := sqrtFn (l1 * l1 + l2 * l2 + l3 * l3)
    let stn := -st * st
    (1 - expFn (ran / rad)) * expFn (rbn / rbd) * (1 - expFn (stn / std))
  else 0

/-- The vesselness response exactly as the spec sentence words it:
response = (1 - exp(-Ra^2/2a^2)) * exp(-Rb^2/2b^2) * (1 - exp(-S^2/2c^2))
with Ra=|l2|/|l3|, Rb=|l1|/sqrt(l2*l3), S=sqrt(l1^2+l2^2+l3^2) and the
fixed constants a=1/2, b=1/2, c=500, computed only when l2<0 and l3<0 and
0 otherwise. -/
def specVesselnessResponse (expFn sqrtFn : ℚ → ℚ) (l1 l2 l3 : ℚ) : ℚ :=
  if l2 < 0 ∧ l3 < 0 then
    let ra := |l2| / |l3|
    let rb := |l1| / sqrtFn (l2 * l3)
    let s := sqrtFn (l1 ^ 2 + l2 ^ 2 + l3 ^ 2)
    (1 - expFn (-(ra ^ 2) / (2 * (1/2 : ℚ) ^ 2))) *
      expFn (-(rb ^ 2) / (2 * (1/2 : ℚ) ^ 2)) *
      (1 - expFn (-(s ^ 2) / (2 * (500 : ℚ) ^ 2)))
  else 0

/-! ### Multiscale fusion (MultiscaleVesselness loop, lines 2263-2280,
and the scale step, main line 2698) -/

/-- The per-voxel maximum update of lines 2271-2277:
`if (vn > vo) VSSS->SetTuple1(id,vn)`. -/
def vesselSelectMax (vo vn : ℚ) : ℚ := if vn > vo then vn else vo

/-- The fused multiscale tubularity value at one voxel: the scale loop of
lines 2263-2279 applied to the per-scale responses `resp`, starting from
the zero-filled accumulator `VSSS` (line 2259). -/
def fusedValue (resp : ℚ → ℚ) (scales : List ℚ) : ℚ :=
  scales.foldl (fun vo s => vesselSelectMax vo (resp s)) 0

/-- The scale step computed in `main` (line 2698):
`_dsigma = (nsigma>1) ? (sigmaf-sigmai)/(nsigma-1) : sigmaf`. -/
def codeDSigma (sigmai sigmaf : ℚ) (nsigma : ℤ) : ℚ :=
  if nsigma > 1 then (sigmaf - sigmai) / ((nsigma : ℚ) - 1) else sigmaf

/-- The scale step as the spec sentence words it: evenly spaced from
sigma_min to sigma_max with step (sigma_max - sigma_min)/(count-1) when
count > 1, else sigma_max. -/
def specScaleStep (sigmaMin sigmaMax : ℚ) (count : ℤ) : ℚ :=
  if count > 1 then (sigmaMax - sigmaMin) / ((count : ℚ) - 1) else sigmaMax

/-! ### Fixed-threshold binarization
(BinarizeAndConvertDoubleToChar, lines 936-972) -/

/-- The routine BinarizeAndConvertDoubleToChar (lines 936-972) on the flat list of
voxel values: for threshold > 0, value <= threshold becomes 0 and anything
above becomes 255 (lines 952-960); for threshold <= 0 the grid is instead
rescaled by the global range, truncated to an integer
(lines 961-966, `(int)(255*(x-range[0])/(range[1]-range[0]))`). -/
def binarizeFixed (g : List ℚ) (threshold : ℚ) : List ℚ :=
  if threshold > 0 then
    g.map (fun x => if x ≤ threshold then (0 : ℚ) else 255)
  else
    let lo := rangeMin g
    let hi := rangeMax g
    g.map (fun x => (Int.floor (255 * (x - lo) / (hi - lo)) : ℚ))

/-- The divisors used by `BinarizeAndConvertDoubleToChar`: the threshold > 0
branch divides nowhere; the rescale branch divides every voxel by the global
range `range[1]-range[0]` (line 964). -/
def binarizeFixedDivisors (g : List ℚ) (threshold : ℚ) : List ℚ :=
  if threshold > 0 then [] else [rangeMax g - rangeMin g]

/-! ### Per-plane z-adaptive binarization
(BinarizeAndConvertDoubleToCharZAdaptive, lines 974-1051) -/

/-- Stand-in for the C constant DBL_MAX used to seed the plane/block minimum
(lines 994 and 1080); only the fact that it exceeds every grid value
matters. -/
def dblMax : ℚ := 2 ^ 1024

/-- Stand-in for the C constant DBL_MIN (smallest positive normal double,
2^-1022) used to seed the plane/block maximum (lines 994 and 1080). -/
def dblMin : ℚ := 1 / 2 ^ 1022

/-- Plane/block minimum: seeded with DBL_MAX and lowered by every value
(lines 1004 / 1091). -/
def scanMin (vals : List ℚ) : ℚ := vals.foldl min dblMax

/-- Plane/block maximum: seeded with DBL_MIN and raised by every value
(lines 1005 / 1092). -/
def scanMax (vals : List ℚ) : ℚ := vals.foldl max dblMin

/-- Plane/block mean: the accumulated sum divided by the pixel count
(lines 1003, 1008 / 1090, 1096). -/
def scanMean (vals : List ℚ) : ℚ := vals.sum / (vals.length : ℚ)

/-- Plane/block variance numerator: sum of squared deviations from the mean
(lines 1011-1019 / 1099-1109). -/
def scanVarSum (vals : List ℚ) : ℚ :=
  (vals.map (fun v => (v - scanMean vals) * (v - scanMean vals))).sum

/-- The adaptive threshold of one z-plane (lines 993-1028): mean plus twice
base-scaled standard deviation, then two conditional replacements:
if above the plane max it becomes 0.8 * max, and if (then) below the plane
min it becomes min + 0.1 * range. -/
def zAdaptiveThreshold (sqrtFn : ℚ → ℚ) (plane : List ℚ) (base : ℚ) : ℚ :=
  let zMin := scanMin plane
  let zMax := scanMax plane
  let zMean := scanMean plane
  let zStd := sqrtFn (scanVarSum plane / (plane.length : ℚ))
  let t0 := zMean + zStd * base * 2
  let t1 := if t0 > zMax then zMax * (8/10) else t0
  if t1 < zMin then zMin + (zMax - zMin) * (1/10) else t1

/-- Binarization of one z-plane (lines 1033-1045): voxels at or below the
plane threshold become 0, the rest 255. -/
def zAdaptivePlane (sqrtFn : ℚ → ℚ) (plane : List ℚ) (base : ℚ) : List ℚ :=
  plane.map (fun v => if v ≤ zAdaptiveThreshold sqrtFn plane base then (0 : ℚ) else 255)

/-- The routine BinarizeAndConvertDoubleToCharZAdaptive (lines 974-1051): every
z-plane is processed independently. -/
def binarizeZAdaptive (sqrtFn : ℚ → ℚ) (planes : List (List ℚ)) (base : ℚ) :
    List (List ℚ) :=
  planes.map (fun p => zAdaptivePlane sqrtFn p base)

/-- The claim-side plane threshold: mean + 2 * base * std CLAMPED into the
interval [min + 0.1 * range, 0.8 * max]. -/
def claimZAdaptiveThreshold (sqrtFn : ℚ → ℚ) (plane : List ℚ) (base : ℚ) : ℚ :=
  let zMin := scanMin plane
  let zMax := scanMax plane
  let zMean := scanMean plane
  let zStd := sqrtFn (scanVarSum plane / (plane.length : ℚ))
  let t0 := zMean + 2 * base * zStd
  max (zMin + (1/10) * (zMax - zMin)) (min t0 ((8/10) * zMax))

/-- Claim-side plane binarization: same 0/255 rule, with the clamped
threshold. -/
def claimZAdaptivePlane (sqrtFn : ℚ → ℚ) (plane : List ℚ) (base : ℚ) : List ℚ :=
  plane.map (fun v => if v ≤ claimZAdaptiveThreshold sqrtFn plane base then (0 : ℚ) else 255)

/-- The divisors used by the per-plane adaptive policy: each plane divides
twice by its pixel count `z_pixels` (lines 1008 and 1020). -/
def zAdaptiveDivisors (planes : List (List ℚ)) : List ℚ :=
  planes.flatMap (fun p => [(p.length : ℚ), (p.length : ℚ)])

/-! ### Per-block conservative binarization
(BinarizeAndConvertDoubleToCharZAdaptiveConservative, lines 1053-1207) -/

/-- The z-planes grouped into consecutive blocks of `k` planes
(the loop header of line 1074, `z_start += z_block_size`), with fuel for
termination; `chunksOf` below instantiates the fuel. -/
def chunksOfAux (k : ℕ) : ℕ → List α → List (List α)
  | 0, _ => []
  | _, [] => []
  | fuel + 1, l => l.take k :: chunksOfAux k fuel (l.drop k)

/-- Consecutive blocks of `k` elements; the loop of line 1074 runs at most
`l.length` times once `k` is at least 1 (main clamps `z_block_size` to a
minimum of 1 at lines 2626-2629). -/
def chunksOf (k : ℕ) (l : List α) : List (List α) :=
  chunksOfAux k l.length l

/-- The adaptive threshold of one z-block of the conservative policy
(lines 1079-1182), computed from the flattened block values and the global
range of the whole volume. -/
def conservativeThreshold (sqrtFn : ℚ → ℚ) (blockVals : List ℚ)
    (globalLo globalHi : ℚ) (base : ℚ) : ℚ :=
  let blockMin := scanMin blockVals
  let blockMax := scanMax blockVals
  let blockMean := scanMean blockVals
  let blockStd := sqrtFn (scanVarSum blockVals / (blockVals.length : ℚ))
  -- lines 1115-1121: guard against uniform blocks before dividing
  let blockRange0 := blockMax - blockMin
  let blockRange := if blockRange0 < 1/1000000 then 1 else blockRange0
  let brightness := (blockMean - blockMin) / blockRange
  let cv := if blockMean > 0 then blockStd / blockMean else 0
  -- line 1128: dark-region detection
  let isVeryDark := blockMean < (globalHi - globalLo) * (1/10) ∨ brightness < 2/10
  let adaptive :=
    if isVeryDark then
      -- lines 1132-1144
      let t0 := if blockMean < (globalHi - globalLo) * (5/100) then
                  blockMean + blockStd * base * (3/2)
                else blockMean + blockStd * base * 2
      let darkFloor := blockMin + blockRange * (1/100)
      if t0 < darkFloor then darkFloor else t0
    else
      -- lines 1146-1167
      let mapped := blockMin + blockRange * base
      let adj0 : ℚ := if cv > 1/2 then blockStd * (2/10)
                      else if cv < 3/10 then -(blockStd * (1/10)) else 0
      let adj := if brightness < 1/2 then adj0 - blockStd * (1/10) else adj0
      mapped + adj
  -- lines 1169-1182: bounds by region type
  let loBound := if isVeryDark then blockMin + blockRange * (1/100)
                 else blockMin + blockRange * (base * (3/10))
  let hiBound := if isVeryDark then blockMean + blockStd * 3
                 else blockMin + blockRange * (base * 3)
  let t1 := if adaptive < loBound then loBound else adaptive
  if t1 > hiBound then hiBound else t1

/-- The routine BinarizeAndConvertDoubleToCharZAdaptiveConservative (lines 1053-1207):
planes are grouped into z-blocks, each block gets one threshold, voxels at
or below it become 0 and the rest 255 (lines 1186-1201). -/
def binarizeConservative (sqrtFn : ℚ → ℚ) (planes : List (List ℚ)) (base : ℚ)
    (zBlockSize : ℕ) : List (List ℚ) :=
  let allVals := planes.flatten
  let globalLo := rangeMin allVals
  let globalHi := rangeMax allVals
  (chunksOf zBlockSize planes).flatMap (fun block =>
    let t := conservativeThreshold sqrtFn block.flatten globalLo globalHi base
    block.map (fun p => p.map (fun v => if v ≤ t then (0 : ℚ) else 255)))

/-- The divisors used by the conservative policy on one block: the pixel
count twice (lines 1096 and 1110), the guarded block range (line 1124), and
the block mean only when positive (line 1125). -/
def conservativeBlockDivisors (blockVals : List ℚ) : List ℚ :=
  let blockMin := scanMin blockVals
  let blockMax := scanMax blockVals
  let blockMean := scanMean blockVals
  let blockRange0 := blockMax - blockMin
  let blockRange := if blockRange0 < 1/1000000 then 1 else blockRange0
  [(blockVals.length : ℚ), (blockVals.length : ℚ), blockRange] ++
    (if blockMean > 0 then [blockMean] else [])

/-- All divisors used by the conservative policy over the whole volume. -/
def conservativeDivisors (planes : List (List ℚ)) (zBlockSize : ℕ) : List ℚ :=
  (chunksOf zBlockSize planes).flatMap (fun block => conservativeBlockDivisors block.flatten)

/-! ### Skeleton graph (points, polyline cells, width layer) -/

/-- An embedded skeleton point. -/
abbrev Point := ℚ × ℚ × ℚ

/-- Point lookup by id (`GetPoint`); ids produced by VTK are in range, the
default is never reached on well-formed inputs. -/
def getPoint (pts : List Point) (i : ℕ) : Point := pts.getD i (0, 0, 0)

/-- Squared Euclidean distance between two points, the sum of squared
coordinate differences (lines 1376-1380 and 1984 and 2044). -/
def sqDist (p q : Point) : ℚ :=
  (p.1 - q.1) * (p.1 - q.1) + (p.2.1 - q.2.1) * (p.2.1 - q.2.1) +
    (p.2.2 - q.2.2) * (p.2.2 - q.2.2)

/-- Euclidean distance as the code computes it: `sqrt` of the sum of
squared differences. -/
def euclidDist (sqrtFn : ℚ → ℚ) (pts : List Point) (i j : ℕ) : ℚ :=
  sqrtFn (sqDist (getPoint pts i) (getPoint pts j))

/-! ### Graph-level fragment repair (ConnectSkeletonFragments,
lines 1341-1395) -/

/-- The degree count of lines 1346-1352: the number of cells whose first or
last point id is the given point.  (`GetPointCells` enumerates cells using
the point; the body only increments when the point is first or
last id, so counting over all cells is the same number.) -/
def skelDegree (cells : List (List ℕ)) (i : ℕ) : ℕ :=
  cells.countP (fun c => decide (c.head? = some i ∨ c.getLast? = some i))

/-- The endpoint list of lines 1341-1357: point ids of degree exactly 1, in
increasing id order. -/
def skelEndpoints (cells : List (List ℕ)) (npts : ℕ) : List ℕ :=
  (List.range npts).filter (fun i => decide (skelDegree cells i = 1))

/-- All index pairs (i, j) with i before j, as the double loop of
lines 1366-1367 enumerates them. -/
def orderedPairs : List α → List (α × α)
  | [] => []
  | x :: xs => xs.map (fun y => (x, y)) ++ orderedPairs xs

/-- The endpoint pairs marked for connection (lines 1366-1395): a pair is
kept exactly when its Euclidean distance is at most `max_gap_distance` and
strictly greater than 0.1 (line 1383; the `already_connected` flag of
lines 1385-1390 is always false). -/
def connectionsToAdd (sqrtFn : ℚ → ℚ) (pts : List Point) (cells : List (List ℕ))
    (maxGapDistance : ℚ) : List (ℕ × ℕ) :=
  (orderedPairs (skelEndpoints cells pts.length)).filter
    (fun pr => decide (euclidDist sqrtFn pts pr.1 pr.2 ≤ maxGapDistance ∧
      (1/10 : ℚ) < euclidDist sqrtFn pts pr.1 pr.2))

/-! ### Tubule length and volume attributes
(EstimateTubuleLength lines 1969-1995,
GetVolumeFromSkeletonLengthAndWidth lines 2035-2053) -/

/-- The length of one polyline edge (lines 1980-1986): the sum of
consecutive point-to-point Euclidean distances. -/
def edgeLength (sqrtFn : ℚ → ℚ) (pts : List Point) (cell : List ℕ) : ℚ :=
  (cell.zip cell.tail).foldl
    (fun acc pr => acc + sqrtFn (sqDist (getPoint pts pr.1) (getPoint pts pr.2))) 0

/-- The "Length" point layer of `EstimateTubuleLength` (lines 1969-1995):
every point of an edge receives the total length of that edge; edges are
processed in descending cell order (`for edge = ncells; edge--`). -/
def lengthLayer (sqrtFn : ℚ → ℚ) (pts : List Point) (cells : List (List ℕ)) :
    List ℚ :=
  cells.reverse.foldl
    (fun layer cell =>
      let len := edgeLength sqrtFn pts cell
      cell.foldl (fun ly i => ly.set i len) layer)
    (List.replicate pts.length 0)

/-- The rational literal 3.141592 used for the frustum integral at
line 2046. -/
def piLiteral : ℚ := 3141592 / 1000000

/-- The accumulators of `GetVolumeFromSkeletonLengthAndWidth`
(lines 2036-2048): total length, and the frustum-of-cone volume
`3.141592/3 * h * (R1^2 + R2^2 + R1*R2)` with radii half the "Width" layer
values of the segment ends. -/
def skeletonTotals (sqrtFn : ℚ → ℚ) (pts : List Point) (widths : List ℚ)
    (cells : List (List ℕ)) : ℚ × ℚ :=
  cells.reverse.foldl
    (fun acc cell =>
      (cell.zip cell.tail).foldl
        (fun ac pr =>
          let r1 := (1/2) * widths.getD pr.1 0
          let r2 := (1/2) * widths.getD pr.2 0
          let h := sqrtFn (sqDist (getPoint pts pr.1) (getPoint pts pr.2))
          (ac.1 + h, ac.2 + piLiteral / 3 * h * (r1 * r1 + r2 * r2 + r1 * r2)))
        acc)
    (0, 0)

/-- The emitted "Total length (um)" attribute value (line 2049). -/
def totalLengthAttr (sqrtFn : ℚ → ℚ) (pts : List Point) (widths : List ℚ)
    (cells : List (List ℕ)) : ℚ :=
  (skeletonTotals sqrtFn pts widths cells).1

/-- The emitted "Volume from length (um3)" attribute value (line 2051):
`length * (acos(-1.0) * pow(_rad,2))`, with `piVal` standing for
`acos(-1.0)` and `rad` for the global tuning parameter `_rad`. -/
def volumeFromLengthAttr (sqrtFn : ℚ → ℚ) (piVal rad : ℚ) (pts : List Point)
    (widths : List ℚ) (cells : List (List ℕ)) : ℚ :=
  (skeletonTotals sqrtFn pts widths cells).1 * (piVal * rad ^ 2)

/-! ### Bit-depth normalization and its orchestration
(Convert16To8bit lines 609-655, MultiscaleVesselness lines 2216-2242) -/

/-- The scalar type reported by the volumetric reader. -/
inductive BitDepth
  | u8
  | u16
  | other
deriving DecidableEq

/-- An input volume: its reported bit depth and its voxel values. -/
structure VolumeImage where
  depth : BitDepth
  vals : List ℚ
deriving DecidableEq

/-- The routine Convert16To8bit (lines 609-655): 8-bit volumes pass through, 16-bit
volumes are rescaled by the global range and truncated to unsigned char
(line 643-644), any other depth yields the null sentinel (line 653),
modelled as `none`. -/
def convert16To8bit (img : VolumeImage) : Option VolumeImage :=
  match img.depth with
  | BitDepth.u8 => some img
  | BitDepth.u16 =>
      let lo := rangeMin img.vals
      let hi := rangeMax img.vals
      some { depth := BitDepth.u8,
             vals := img.vals.map (fun x => (Int.floor (255 * (x - lo) / (hi - lo)) : ℚ)) }
  | BitDepth.other => none

/-- What the orchestrator does right after normalization. -/
inductive RunOutcome
  | crash
  | fatalStop
  | proceeds (n : ℕ)
deriving DecidableEq

/-- The normalization step of `MultiscaleVesselness` and what follows it
(lines 2222-2240): on a null result the code only prints
"Format not supported." (line 2236) and then dereferences the null image at
line 2240 (`N = Image->GetNumberOfPoints()`), modelled as `crash`; on a
non-null result the pipeline proceeds. -/
def multiscaleNormalizePhase (img : VolumeImage) : RunOutcome :=
  match convert16To8bit img with
  | none => RunOutcome.crash
  | some g => RunOutcome.proceeds g.vals.length

/-- Modelled from the spec (section 7 error handling; the behavior the claim
asserts): an unsupported bit depth makes the normalization stage return an
empty result which the orchestrator propagates as fatal for that file, so no
further pipeline stage runs. -/
def specNormalizePhase (img : VolumeImage) : RunOutcome :=
  match convert16To8bit img with
  | none => RunOutcome.fatalStop
  | some g => RunOutcome.proceeds g.vals.length

/-- The per-plane threshold as the AMENDED claim words it: mean + 2*base*std;
if it exceeds the plane max it is replaced by 0.8*max, and if the result is
then below the plane min it is replaced by min + 0.1*range (two conditional
replacements, not a clamp into an interval). -/
def amendedZAdaptiveThreshold (sqrtFn : ℚ → ℚ) (plane : List ℚ) (base : ℚ) : ℚ :=
  let zMin := scanMin plane
  let zMax := scanMax plane
  let mu := scanMean plane
  let sigma := sqrtFn (scanVarSum plane / (plane.length : ℚ))
  let t0 := mu + 2 * base * sigma
  let t1 := if t0 > zMax then (8/10) * zMax else t0
  if t1 < zMin then zMin + (1/10) * (zMax - zMin) else t1

/-! ### Concrete instantiations of the transcendental/external parameters

Each oracle is exact at every argument the corresponding concrete
computation actually reaches (all of them perfect squares). -/

/-- Square-root oracle for the noise-floor computations: exact at 256, 25,
16, 9, 4 and 1. -/
def sqrtOracleSq : ℚ → ℚ := fun q =>
  if q = 256 then 16 else if q = 25 then 5 else if q = 16 then 4
  else if q = 9 then 3 else if q = 4 then 2 else if q = 1 then 1 else 0

/-- Eigen-solver oracle returning a fixed eigenvalue triple; the claims
under test are independent of the actual diagonalization. -/
def diagOracle : Mat3 → ℚ × ℚ × ℚ := fun _ => (-1, -2, -3)

/-- A Hessian with a single entry -16: squared Frobenius norm 256,
Frobenius norm 16, trace -16. -/
def matA : Mat3 := ⟨-16, 0, 0, 0, 0, 0, 0, 0, 0⟩

/-- A Hessian with a single entry -5: squared Frobenius norm 25,
Frobenius norm 5, trace -5. -/
def matB : Mat3 := ⟨-5, 0, 0, 0, 0, 0, 0, 0, 0⟩

/-- A Hessian with a single entry -3: squared Frobenius norm 9,
Frobenius norm 3, trace -3. -/
def matC : Mat3 := ⟨-3, 0, 0, 0, 0, 0, 0, 0, 0⟩

/-- The z-plane used against the per-plane adaptive policy: mean 7,
variance 25 (so standard deviation exactly 5), min 0, max 14. -/
def planeC5 : List ℚ := [0, 2, 6, 8, 12, 14]

/-- A rational stand-in for acos(-1.0); any nonzero value exhibits the
volume-attribute divergence. -/
def piStandIn : ℚ := 355 / 113

/-- Skeleton points for the fragment-repair instance: two two-point
fragments on the x-axis. -/
def ptsC10 : List Point := [(0, 0, 0), (1, 0, 0), (5, 0, 0), (6, 0, 0)]

/-- Cells of the fragment-repair instance: two disjoint two-point edges. -/
def cellsC10 : List (List ℕ) := [[0, 1], [2, 3]]

/-! ## Helper lemmas -/

theorem sortTriple_absOrdered (a b c : ℚ) : absOrdered (sortTriple a b c) := by
  unfold sortTriple sortSwap12 sortSwap23 absOrdered
  split_ifs <;> constructor <;> simp_all <;> linarith

theorem vesselSelectMax_le_left (vo vn : ℚ) : vo ≤ vesselSelectMax vo vn := by
  unfold vesselSelectMax
  split_ifs with h
  · exact le_of_lt h
  · exact le_refl vo

theorem vesselSelectMax_le_right (vo vn : ℚ) : vn ≤ vesselSelectMax vo vn := by
  unfold vesselSelectMax
  split_ifs with h
  · exact le_refl vn
  · exact le_of_not_lt h

theorem le_fusedFold (resp : ℚ → ℚ) :
    ∀ (l : List ℚ) (init : ℚ),
      init ≤ l.foldl (fun vo s => vesselSelectMax vo (resp s)) init
  | [], init => le_refl init
  | x :: xs, init =>
      le_trans (vesselSelectMax_le_left init (resp x)) (le_fusedFold resp xs _)

theorem resp_le_fusedFold (resp : ℚ → ℚ) (a : ℚ) (l : List ℚ) :
    ∀ (init : ℚ), a ∈ l →
      resp a ≤ l.foldl (fun vo s => vesselSelectMax vo (resp s)) init := by
  induction l with
  | nil => intro init h; cases h
  | cons x xs ih =>
    intro init h
    rcases List.mem_cons.mp h with rfl | hx
    · exact le_trans (vesselSelectMax_le_right init (resp a)) (le_fusedFold resp xs _)
    · exact ih _ hx

/-! ## Claim theorems -/

/-- Claim C1: for every voxel and every scale, the vesselness response
equals (1 - exp(-Ra^2/2a^2)) * exp(-Rb^2/2b^2) * (1 - exp(-S^2/2c^2)) with
Ra=|l2|/|l3|, Rb=|l1|/sqrt(l2*l3), S=sqrt(l1^2+l2^2+l3^2) and fixed
constants a=0.5, b=0.5, c=500 when both l2<0 and l3<0, and equals exactly 0
whenever l2>=0 or l3>=0 (else-branch of line 1853). -/
theorem vesselness_matches_spec (expFn sqrtFn : ℚ → ℚ) (l1 l2 l3 : ℚ) :
    getVesselnessResponse expFn sqrtFn l1 l2 l3 =
      specVesselnessResponse expFn sqrtFn l1 l2 l3 := by
  unfold getVesselnessResponse specVesselnessResponse
  by_cases h : l2 < 0 ∧ l3 < 0
  · simp only [if_pos h]
    ring_nf
  · simp only [if_neg h]

/-- Claim C3: multiscale fusion is a pointwise maximum — the fused
tubularity value dominates the single-scale response of every scale in the
set run — and the scale step equals (sigma_max - sigma_min)/(count-1) when
count > 1, else sigma_max. -/
theorem multiscale_fusion_pointwise_max (resp : ℚ → ℚ) (scales : List ℚ)
    (s1 s2 : ℚ) (h1 : s1 ∈ scales) (h2 : s2 ∈ scales)
    (sigmai sigmaf : ℚ) (n : ℤ) :
    max (resp s1) (resp s2) ≤ fusedValue resp scales ∧
      codeDSigma sigmai sigmaf n = specScaleStep sigmai sigmaf n := by
  refine ⟨?_, rfl⟩
  unfold fusedValue
  exact max_le (resp_le_fusedFold resp s1 scales 0 h1)
    (resp_le_fusedFold resp s2 scales 0 h2)

/-- Witness for C3 at a concrete pair of scales. -/
theorem multiscale_fusion_pointwise_max_witness :
    (1 : ℚ) ∈ [(1 : ℚ), 2] ∧ (2 : ℚ) ∈ [(1 : ℚ), 2] ∧
      (max (id (1 : ℚ)) (id (2 : ℚ)) ≤ fusedValue id [(1 : ℚ), 2] ∧
        codeDSigma 1 3 5 = specScaleStep 1 3 5) :=
  ⟨by decide, by decide,
    multiscale_fusion_pointwise_max id [(1 : ℚ), 2] 1 2 (by decide) (by decide) 1 3 5⟩

/-- Claim C7: fixed-threshold binarization is idempotent on binary 0/255
grids for any threshold in (0,1). -/
theorem binarizeFixed_idempotent (g : List ℚ) (t : ℚ)
    (hb : ∀ x ∈ g, x = 0 ∨ x = 255) (h0 : 0 < t) (h1 : t < 1) :
    binarizeFixed g t = g := by
  unfold binarizeFixed
  rw [if_pos h0]
  revert hb
  induction g with
  | nil => intro _; rfl
  | cons x xs ih =>
    intro hb
    have hfx : (if x ≤ t then (0 : ℚ) else 255) = x := by
      rcases hb x (List.mem_cons_self x xs) with rfl | rfl
      · exact if_pos (le_of_lt h0)
      · exact if_neg (by linarith)
    rw [List.map_cons, hfx, ih (fun y hy => hb y (List.mem_cons_of_mem x hy))]

/-- Witness for C7 on a concrete binary grid. -/
theorem binarizeFixed_idempotent_witness :
    (∀ x ∈ [(0 : ℚ), 255], x = 0 ∨ x = 255) ∧ (0 : ℚ) < 1/2 ∧ (1/2 : ℚ) < 1 ∧
      binarizeFixed [(0 : ℚ), 255] (1/2) = [(0 : ℚ), 255] :=
  ⟨by decide, by norm_num, by norm_num,
    binarizeFixed_idempotent [(0 : ℚ), 255] (1/2) (by decide) (by norm_num) (by norm_num)⟩

/-- Claim C9 (code bug): on a bit depth that is neither 8- nor 16-bit
unsigned, normalization does return the null sentinel, but the orchestrator
check at line 2236 only prints a message and execution falls through to the
null dereference at line 2240 instead of stopping fatally, so the claim
that no further pipeline stage runs is violated by the code. -/
theorem unsupported_depth_not_fatal :
    convert16To8bit ⟨BitDepth.other, [1, 2]⟩ = none ∧
      multiscaleNormalizePhase ⟨BitDepth.other, [1, 2]⟩ = RunOutcome.crash ∧
      specNormalizePhase ⟨BitDepth.other, [1, 2]⟩ = RunOutcome.fatalStop ∧
      RunOutcome.crash ≠ RunOutcome.fatalStop := by
  refine ⟨rfl, rfl, rfl, ?_⟩
  decide

/-- Claim C8: after Hessian-based filtering every stored eigenvalue triple
satisfies |l1| <= |l2| <= |l3|: the three-element sorting routine
establishes ascending absolute-value order for every input triple, and both
the nonnegative-trace branch (all zeros) and the noise-floor zeroing
preserve that order. -/
theorem eigen_triples_abs_sorted :
    (∀ a b c : ℚ, absOrdered (sortTriple a b c)) ∧
      (∀ (sqrtFn : ℚ → ℚ) (diagFn : Mat3 → ℚ × ℚ × ℚ) (Hs : List Mat3)
        (t : ℚ × ℚ × ℚ), t ∈ hessianEigenvaluesDiscrete sqrtFn diagFn Hs →
          absOrdered t) := by
  refine ⟨sortTriple_absOrdered, ?_⟩
  intro sqrtFn diagFn Hs t ht
  unfold hessianEigenvaluesDiscrete at ht
  simp only [List.mem_map] at ht
  obtain ⟨p, hp, rfl⟩ := ht
  split_ifs
  · exact ⟨by norm_num, by norm_num⟩
  · obtain ⟨M, hM, rfl⟩ := hp
    unfold hessianEigenPass
    split_ifs
    · exact sortTriple_absOrdered _ _ _
    · exact ⟨by norm_num, by norm_num⟩

/-- Witness for C8 on a concrete one-voxel volume. -/
theorem eigen_triples_abs_sorted_witness :
    ((2 : ℚ), (-3 : ℚ), (5 : ℚ)) ∈
        hessianEigenvaluesDiscrete (fun q => q) (fun _ => ((5 : ℚ), (-3 : ℚ), (2 : ℚ)))
          [matA] ∧
      absOrdered ((2 : ℚ), (-3 : ℚ), (5 : ℚ)) := by
  have hm : ((2 : ℚ), (-3 : ℚ), (5 : ℚ)) ∈
      hessianEigenvaluesDiscrete (fun q => q) (fun _ => ((5 : ℚ), (-3 : ℚ), (2 : ℚ)))
        [matA] := by
    norm_num [hessianEigenvaluesDiscrete, hessianEigenPass, sortTriple, sortSwap12,
      sortSwap23, frobeniusNorm, frobSq, traceM, rangeMax, matA, abs, max_def]
  exact ⟨hm, eigen_triples_abs_sorted.2 _ _ _ _ hm⟩

/-- Counterexample to claim C2: the noise floor of the code is the square root
of the maximum Frobenius NORM (sqrt applied on top of the already
square-rooted `FrobeniusNorm` values), not of the maximum SQUARED
Frobenius norm.  On two voxels with norms 16 and 5 the code floor is 4
while the claimed floor is 16, and the voxel with norm 5 (below the claimed
floor) keeps its nonzero eigenvalues. -/
theorem hessian_noise_floor_counterexample :
    codeNoiseFloor sqrtOracleSq [matA, matB] = 4 ∧
      claimNoiseFloor sqrtOracleSq [matA, matB] = 16 ∧
      codeNoiseFloor sqrtOracleSq [matA, matB] ≠
        claimNoiseFloor sqrtOracleSq [matA, matB] ∧
      frobeniusNorm sqrtOracleSq matB < claimNoiseFloor sqrtOracleSq [matA, matB] ∧
      hessianEigenvaluesDiscrete sqrtOracleSq diagOracle [matA, matB] =
        [(-1, -2, -3), (-1, -2, -3)] := by
  norm_num [hessianEigenvaluesDiscrete, hessianEigenPass, sortTriple, sortSwap12,
    sortSwap23, frobeniusNorm, frobSq, traceM, rangeMax, codeNoiseFloor,
    claimNoiseFloor, sqrtOracleSq, diagOracle, matA, matB, abs, max_def]

/-- Claim C2 amended: the global noise floor equals the square root of the
maximum Frobenius norm (not of the maximum squared norm), and the
eigenvalues of a voxel are zeroed exactly when its Frobenius norm is below that
floor. -/
theorem hessian_noise_floor_amended (sqrtFn : ℚ → ℚ)
    (diagFn : Mat3 → ℚ × ℚ × ℚ) (Hs : List Mat3) :
    codeNoiseFloor sqrtFn Hs = sqrtFn (rangeMax (Hs.map (frobeniusNorm sqrtFn))) ∧
      hessianEigenvaluesDiscrete sqrtFn diagFn Hs =
        Hs.map (fun M => if frobeniusNorm sqrtFn M < codeNoiseFloor sqrtFn Hs
          then ((0 : ℚ), (0 : ℚ), (0 : ℚ)) else hessianEigenPass diagFn M) := by
  refine ⟨rfl, ?_⟩
  unfold hessianEigenvaluesDiscrete codeNoiseFloor
  simp only [List.map_map]
  rfl

theorem chunksOfAux_mem {α : Type _} {k : ℕ} (hk : 0 < k) :
    ∀ (fuel : ℕ) (l b : List α), b ∈ chunksOfAux k fuel l →
      b ≠ [] ∧ ∀ x ∈ b, x ∈ l := by
  intro fuel
  induction fuel with
  | zero => intro l b hb; simp [chunksOfAux] at hb
  | succ m ih =>
    intro l b hb
    cases l with
    | nil => simp [chunksOfAux] at hb
    | cons y ys =>
      simp only [chunksOfAux, List.mem_cons] at hb
      rcases hb with rfl | hb
      · refine ⟨?_, fun x hx => List.take_subset _ _ hx⟩
        cases k with
        | zero => exact absurd hk (lt_irrefl 0)
        | succ k0 => simp
      · obtain ⟨h1, h2⟩ := ih _ _ hb
        exact ⟨h1, fun x hx => List.drop_subset _ _ (h2 x hx)⟩

theorem chunksOf_mem {α : Type _} {k : ℕ} {l b : List α} (hk : 0 < k)
    (hb : b ∈ chunksOf k l) : b ≠ [] ∧ ∀ x ∈ b, x ∈ l :=
  chunksOfAux_mem hk _ _ _ hb

theorem foldl_max_replicate (n : ℕ) (c : ℚ) :
    (List.replicate n c).foldl max c = c := by
  induction n with
  | zero => rfl
  | succ m ih => simpa [List.replicate_succ, max_self] using ih

theorem foldl_min_replicate (n : ℕ) (c : ℚ) :
    (List.replicate n c).foldl min c = c := by
  induction n with
  | zero => rfl
  | succ m ih => simpa [List.replicate_succ, min_self] using ih

theorem flatten_ne_nil {α : Type _} {L : List (List α)} {p : List α}
    (hp : p ∈ L) (hne : p ≠ []) : L.flatten ≠ [] := by
  intro h
  rw [List.flatten_eq_nil_iff] at h
  exact hne (h p hp)

/-- Claim C4 amended: the fixed-threshold policy with a positive threshold
and the two adaptive policies never divide by zero (plane and block
statistics divide only by positive pixel counts, the conservative policy
guards its block range and coefficient of variation); but the fixed-
threshold rescale branch (threshold <= 0) divides by the unguarded global
range, which is zero for every uniform grid. -/
theorem binarize_no_zero_divisor_amended (g : List ℚ) (t : ℚ)
    (planes : List (List ℚ)) (k : ℕ) (c : ℚ) (n : ℕ)
    (ht : 0 < t) (hp : ∀ p ∈ planes, p ≠ []) (hk : 0 < k) :
    (0 : ℚ) ∉ binarizeFixedDivisors g t ∧
      (0 : ℚ) ∉ zAdaptiveDivisors planes ∧
      (0 : ℚ) ∉ conservativeDivisors planes k ∧
      binarizeFixedDivisors (List.replicate (n + 1) c) 0 = [0] := by
  refine ⟨?_, ?_, ?_, ?_⟩
  · unfold binarizeFixedDivisors
    rw [if_pos ht]
    exact List.not_mem_nil 0
  · intro h
    unfold zAdaptiveDivisors at h
    rw [List.mem_flatMap] at h
    obtain ⟨p, hpm, hmem⟩ := h
    have hlen : p.length ≠ 0 := fun h0 => hp p hpm (List.length_eq_zero.mp h0)
    simp only [List.mem_cons, List.not_mem_nil, or_false] at hmem
    rcases hmem with hmem | hmem <;>
      exact hlen (by exact_mod_cast hmem.symm)
  · intro h
    unfold conservativeDivisors at h
    rw [List.mem_flatMap] at h
    obtain ⟨block, hbm, hmem⟩ := h
    obtain ⟨hbne, hbsub⟩ := chunksOf_mem hk hbm
    obtain ⟨p, hpb⟩ := List.exists_mem_of_ne_nil block hbne
    have hflat : block.flatten ≠ [] := flatten_ne_nil hpb (hp p (hbsub p hpb))
    have hflen : (0 : ℚ) ≠ (block.flatten.length : ℚ) := by
      have hpos := List.length_pos.mpr hflat
      intro hc
      have hz : (block.flatten.length : ℚ) = 0 := hc.symm
      rw [Nat.cast_eq_zero] at hz
      omega
    simp only [conservativeBlockDivisors] at hmem
    rcases List.mem_append.mp hmem with h1 | h2
    · rcases List.mem_cons.mp h1 with h | h1
      · exact hflen h
      rcases List.mem_cons.mp h1 with h | h1
      · exact hflen h
      rcases List.mem_cons.mp h1 with h | h1
      · revert h
        split_ifs with hr
        · norm_num
        · intro h
          exact hr (by rw [← h]; norm_num)
      · exact List.not_mem_nil _ h1
    · revert h2
      split_ifs with hm
      · intro h2
        rcases List.mem_cons.mp h2 with h | h2
        · rw [← h] at hm
          exact lt_irrefl 0 hm
        · exact List.not_mem_nil _ h2
      · intro h2
        exact List.not_mem_nil _ h2
  · unfold binarizeFixedDivisors
    rw [if_neg (by norm_num : ¬ (0 : ℚ) > 0)]
    rw [List.replicate_succ]
    simp [rangeMax, rangeMin, foldl_max_replicate, foldl_min_replicate]

/-- Witness for the amended C4 at concrete grids. -/
theorem binarize_no_zero_divisor_amended_witness :
    (0 : ℚ) < 1 ∧ (∀ p ∈ [[(1 : ℚ), 2]], p ≠ []) ∧ (0 : ℕ) < 1 ∧
      ((0 : ℚ) ∉ binarizeFixedDivisors [3] 1 ∧
        (0 : ℚ) ∉ zAdaptiveDivisors [[(1 : ℚ), 2]] ∧
        (0 : ℚ) ∉ conservativeDivisors [[(1 : ℚ), 2]] 1 ∧
        binarizeFixedDivisors (List.replicate (0 + 1) (5 : ℚ)) 0 = [0]) :=
  ⟨by norm_num, by decide, by norm_num,
    binarize_no_zero_divisor_amended [3] 1 [[(1 : ℚ), 2]] 1 5 0 (by norm_num)
      (by decide) (by norm_num)⟩

/-- Counterexample to claim C4: on the uniform grid [5, 5] the fixed-
threshold policy with threshold 0 takes the rescale branch and divides by
the global range 5 - 5 = 0. -/
theorem binarize_zero_divisor_counterexample :
    (0 : ℚ) ∈ binarizeFixedDivisors [5, 5] 0 := by
  norm_num [binarizeFixedDivisors, rangeMax, rangeMin]

/-- Counterexample to claim C5: the code does not clamp the plane threshold
into [min + 0.1*range, 0.8*max]; it only replaces it when it exceeds the
plane max or falls below the plane min.  On the plane [0,2,6,8,12,14]
(mean 7, std 5) with base 11/20 the code threshold is 12.5 (inside
[min, max], untouched) while the claimed clamp gives 11.2, and the voxel
with value 12 is classified differently. -/
theorem zadaptive_threshold_counterexample :
    zAdaptiveThreshold sqrtOracleSq planeC5 (11/20) = 25/2 ∧
      claimZAdaptiveThreshold sqrtOracleSq planeC5 (11/20) = 56/5 ∧
      zAdaptivePlane sqrtOracleSq planeC5 (11/20) = [0, 0, 0, 0, 0, 255] ∧
      claimZAdaptivePlane sqrtOracleSq planeC5 (11/20) = [0, 0, 0, 0, 255, 255] ∧
      zAdaptivePlane sqrtOracleSq planeC5 (11/20) ≠
        claimZAdaptivePlane sqrtOracleSq planeC5 (11/20) := by
  norm_num [zAdaptivePlane, claimZAdaptivePlane, zAdaptiveThreshold,
    claimZAdaptiveThreshold, scanMin, scanMax, scanMean, scanVarSum, planeC5,
    sqrtOracleSq, dblMax, dblMin, max_def, min_def]

/-- Claim C5 amended: the per-plane threshold is mu + 2*base*sigma with two
conditional replacements (above the plane max it becomes 0.8*max, then
below the plane min it becomes min + 0.1*range), and every voxel at or
below the threshold becomes 0 while every voxel above it becomes 255. -/
theorem zadaptive_threshold_amended (sqrtFn : ℚ → ℚ) (plane : List ℚ)
    (base : ℚ) :
    zAdaptiveThreshold sqrtFn plane base =
        amendedZAdaptiveThreshold sqrtFn plane base ∧
      zAdaptivePlane sqrtFn plane base =
        plane.map (fun v =>
          if v ≤ zAdaptiveThreshold sqrtFn plane base then (0 : ℚ) else 255) := by
  constructor
  · simp only [zAdaptiveThreshold, amendedZAdaptiveThreshold]
    ring_nf
  · rfl

theorem mem_orderedPairs {α : Type _} {a b : α} :
    ∀ {l : List α}, (a, b) ∈ orderedPairs l → a ∈ l ∧ b ∈ l := by
  intro l
  induction l with
  | nil => intro h; cases h
  | cons x xs ih =>
    intro h
    rcases List.mem_append.mp h with h1 | h2
    · obtain ⟨y, hy, hxy⟩ := List.mem_map.mp h1
      injection hxy with e1 e2
      subst e1; subst e2
      exact ⟨List.mem_cons_self _ _, List.mem_cons_of_mem _ hy⟩
    · obtain ⟨ha, hb⟩ := ih h2
      exact ⟨List.mem_cons_of_mem _ ha, List.mem_cons_of_mem _ hb⟩

/-- Claim C10: a connecting edge is marked for a pair of points only if
both have degree 1, their computed Euclidean distance is at most the gap
distance, and that distance is strictly greater than 0.1 — so coincident or
near-coincident endpoint pairs (distance at most 0.1) are never
connected. -/
theorem connect_fragments_gap_bounds (sqrtFn : ℚ → ℚ) (pts : List Point)
    (cells : List (List ℕ)) (gap : ℚ) (p q : ℕ)
    (h : (p, q) ∈ connectionsToAdd sqrtFn pts cells gap) :
    skelDegree cells p = 1 ∧ skelDegree cells q = 1 ∧
      euclidDist sqrtFn pts p q ≤ gap ∧
      (1/10 : ℚ) < euclidDist sqrtFn pts p q := by
  unfold connectionsToAdd at h
  have hmem := List.mem_filter.mp h
  have hcond := of_decide_eq_true hmem.2
  obtain ⟨hp, hq⟩ := mem_orderedPairs hmem.1
  unfold skelEndpoints at hp hq
  have hp2 := List.mem_filter.mp hp
  have hq2 := List.mem_filter.mp hq
  exact ⟨of_decide_eq_true hp2.2, of_decide_eq_true hq2.2, hcond.1, hcond.2⟩

/-- Witness for C10 on a concrete two-fragment skeleton. -/
theorem connect_fragments_gap_bounds_witness :
    (((1 : ℕ), (2 : ℕ)) ∈ connectionsToAdd sqrtOracleSq ptsC10 cellsC10 10) ∧
      (skelDegree cellsC10 1 = 1 ∧ skelDegree cellsC10 2 = 1 ∧
        euclidDist sqrtOracleSq ptsC10 1 2 ≤ 10 ∧
        (1/10 : ℚ) < euclidDist sqrtOracleSq ptsC10 1 2) := by
  have hm : ((1 : ℕ), (2 : ℕ)) ∈ connectionsToAdd sqrtOracleSq ptsC10 cellsC10 10 := by
    norm_num [connectionsToAdd, skelEndpoints, skelDegree, orderedPairs,
      euclidDist, getPoint, sqDist, ptsC10, cellsC10, sqrtOracleSq,
      List.range_succ, List.filter, List.countP, List.countP.go]
  exact ⟨hm, connect_fragments_gap_bounds _ _ _ _ _ _ hm⟩

/-- Counterexample to claim C6: on a single straight two-point edge of
length 1 with constant width 4, the Length layer is correct but the emitted
"Volume from length" attribute is pi * _rad^2 * L with the configured fixed
radius (_rad = 1 here), not the claimed pi * L * (w/2)^2. -/
theorem volume_attribute_counterexample :
    lengthLayer sqrtOracleSq [((0 : ℚ), (0 : ℚ), (0 : ℚ)), ((1 : ℚ), (0 : ℚ), (0 : ℚ))]
        [[0, 1]] = [1, 1] ∧
      volumeFromLengthAttr sqrtOracleSq piStandIn 1
        [((0 : ℚ), (0 : ℚ), (0 : ℚ)), ((1 : ℚ), (0 : ℚ), (0 : ℚ))] [4, 4] [[0, 1]] =
        355/113 ∧
      volumeFromLengthAttr sqrtOracleSq piStandIn 1
        [((0 : ℚ), (0 : ℚ), (0 : ℚ)), ((1 : ℚ), (0 : ℚ), (0 : ℚ))] [4, 4] [[0, 1]] ≠
        piStandIn * 1 * ((4 : ℚ) / 2) ^ 2 := by
  norm_num [lengthLayer, edgeLength, volumeFromLengthAttr, skeletonTotals,
    getPoint, sqDist, sqrtOracleSq, piStandIn, piLiteral, List.replicate_succ,
    List.set_cons_zero, List.set_cons_succ]

/-- Claim C6 amended: on a single straight two-point edge of length L with
constant width w, both points get Length = L and "Total length" = L; but
the emitted "Volume from length" attribute is pi * rad^2 * L with the
configured fixed radius, while the frustum-of-cone integral — which equals
3.141592 * L * (w/2)^2 — is only accumulated internally and never
emitted. -/
theorem tubule_attributes_amended (sqrtFn : ℚ → ℚ) (piVal rad : ℚ)
    (p0 p1 : Point) (w L : ℚ) (hL : sqrtFn (sqDist p0 p1) = L) :
    lengthLayer sqrtFn [p0, p1] [[0, 1]] = [L, L] ∧
      totalLengthAttr sqrtFn [p0, p1] [w, w] [[0, 1]] = L ∧
      volumeFromLengthAttr sqrtFn piVal rad [p0, p1] [w, w] [[0, 1]] =
        piVal * rad ^ 2 * L ∧
      (skeletonTotals sqrtFn [p0, p1] [w, w] [[0, 1]]).2 =
        piLiteral * L * (w / 2) ^ 2 := by
  refine ⟨?_, ?_, ?_, ?_⟩ <;>
    simp [lengthLayer, edgeLength, totalLengthAttr, volumeFromLengthAttr,
      skeletonTotals, getPoint, hL] <;> ring

/-- Witness for the amended C6 on a concrete edge. -/
theorem tubule_attributes_amended_witness :
    sqrtOracleSq (sqDist ((0 : ℚ), (0 : ℚ), (0 : ℚ)) ((1 : ℚ), (0 : ℚ), (0 : ℚ))) = 1 ∧
      (lengthLayer sqrtOracleSq [((0 : ℚ), (0 : ℚ), (0 : ℚ)), ((1 : ℚ), (0 : ℚ), (0 : ℚ))]
          [[0, 1]] = [1, 1] ∧
        totalLengthAttr sqrtOracleSq
          [((0 : ℚ), (0 : ℚ), (0 : ℚ)), ((1 : ℚ), (0 : ℚ), (0 : ℚ))] [6, 6] [[0, 1]] = 1 ∧
        volumeFromLengthAttr sqrtOracleSq 3 2
          [((0 : ℚ), (0 : ℚ), (0 : ℚ)), ((1 : ℚ), (0 : ℚ), (0 : ℚ))] [6, 6] [[0, 1]] =
          3 * 2 ^ 2 * 1 ∧
        (skeletonTotals sqrtOracleSq
            [((0 : ℚ), (0 : ℚ), (0 : ℚ)), ((1 : ℚ), (0 : ℚ), (0 : ℚ))] [6, 6]
            [[0, 1]]).2 = piLiteral * 1 * ((6 : ℚ) / 2) ^ 2) := by
  have h : sqrtOracleSq (sqDist ((0 : ℚ), (0 : ℚ), (0 : ℚ)) ((1 : ℚ), (0 : ℚ), (0 : ℚ))) = 1 := by
    norm_num [sqrtOracleSq, sqDist]
  exact ⟨h, tubule_attributes_amended sqrtOracleSq 3 2 _ _ 6 1 h⟩

end MitoGraph
